import Mathlib

/-!
Shallow embedding of `sprinkler_check.py` (Tuzgai/nightly-weather).

Modelling conventions:
* Timestamps are integers (seconds since an arbitrary epoch); timezone-aware
  Python datetimes compare as instants, which integer seconds capture.
* Calendar dates (`datetime.date()`) are modelled as day indices obtained by
  floor division of the timestamp by 86400.
* Python floats are modelled as rationals (`ℚ`); `round(x, n)` is modelled by
  `pyRound n` (round half to even, Python's rounding mode).
* An observation's optional JSON fields (`precipitationLastHour.value`,
  `barometricPressure.value`) are `Option ℚ`: `none` covers both a missing /
  empty dict and a `null` value, matching the guards
  `if precip and precip.get(...) is not None` in the source.
* Network fetching is outside the embedding; each `get_*` function is
  modelled from the point where the source has decoded the JSON response
  into its list of records.
-/

namespace SprinklerCheck

/-- Round a rational to the nearest integer, ties to even — the behaviour of
Python's built-in `round` on the mathematical value. -/
def pyRoundInt (q : ℚ) : ℤ :=
  if q - ⌊q⌋ < 1/2 then ⌊q⌋
  else if 1/2 < q - ⌊q⌋ then ⌊q⌋ + 1
  else if ⌊q⌋ % 2 = 0 then ⌊q⌋ else ⌊q⌋ + 1

/-- Model of Python's `round(q, n)` for rationals. -/
def pyRound (n : ℕ) (q : ℚ) : ℚ := (pyRoundInt (q * 10 ^ n) : ℚ) / 10 ^ n

/-- Calendar date of a timestamp, as a day index (`obs_time.date()` in the
source, with dates modelled as integers). -/
def dateOf (t : ℤ) : ℤ := t / 86400

/-- One record of the station observations feed: a timestamp plus the two
optional measured values the script reads. -/
structure Obs where
  time : ℤ
  precip : Option ℚ
  pressure : Option ℚ

/-! ## get_precipitation_data (lines 66-133) -/

/-- Loop state of `get_precipitation_data`: running recent-window total (mm),
contributing-observation count, newest timestamp seen, and the
insertion-ordered daily-totals dictionary (date ↦ mm). -/
structure PrecipAcc where
  totalMM : ℚ
  count : ℕ
  latest : Option ℤ
  daily : List (ℤ × ℚ)

/-- Update of the `daily_totals` dict: `daily_totals[obs_date] += precip_mm`,
inserting the key at the end if absent (Python dict insertion order). -/
def addDaily (d : ℤ) (p : ℚ) : List (ℤ × ℚ) → List (ℤ × ℚ)
  | [] => [(d, p)]
  | (k, v) :: rest => if k = d then (k, v + p) :: rest else (k, v) :: addDaily d p rest

/-- Body of the observation loop in `get_precipitation_data` (lines 95-112),
run on one observation that already passed the 7-day check. -/
def precipStep (cutoff : ℤ) (s : PrecipAcc) (o : Obs) : PrecipAcc :=
  let s1 := if s.latest.isNone then { s with latest := some o.time } else s
  match o.precip with
  | some p =>
    let s2 :=
      if cutoff ≤ o.time then
        { s1 with totalMM := s1.totalMM + p, count := s1.count + 1 }
      else s1
    { s2 with daily := addDaily (dateOf o.time) p s2.daily }
  | none => s1

/-- Observation loop of `get_precipitation_data` (lines 87-112), including the
`break` once an observation is older than the 7-day horizon. -/
def precipLoop (cutoff horizon : ℤ) : List Obs → PrecipAcc → PrecipAcc
  | [], s => s
  | o :: rest, s =>
    if o.time < horizon then s
    else precipLoop cutoff horizon rest (precipStep cutoff s o)

/-- Initial loop state (lines 80-85). -/
def initPrecipAcc : PrecipAcc := ⟨0, 0, none, []⟩

/-- Descending insertion by date, used to model
`sorted(daily_totals.items(), reverse=True)` (keys are distinct). -/
def insertDayDesc (x : ℤ × ℚ) : List (ℤ × ℚ) → List (ℤ × ℚ)
  | [] => [x]
  | y :: ys => if y.1 ≤ x.1 then x :: y :: ys else y :: insertDayDesc x ys

/-- Sort an association list by date, most recent first. -/
def sortDaysDesc : List (ℤ × ℚ) → List (ℤ × ℚ)
  | [] => []
  | x :: xs => insertDayDesc x (sortDaysDesc xs)

/-- Result dictionary of `get_precipitation_data` (lines 123-130);
`daily_totals` is the date-descending list of (date, inches) pairs. -/
structure PrecipOut where
  total_mm : ℚ
  total_inches : ℚ
  observation_count : ℕ
  latest_observation : Option ℤ
  station_id : String
  daily_totals : List (ℤ × ℚ)

/-- Model of `get_precipitation_data(station_id, hours)` from the decoded
observation list onward (lines 76-130). -/
def get_precipitation_data (station_id : String) (observations : List Obs)
    (now : ℤ) (hours : ℤ) : PrecipOut :=
  let cutoff := now - hours * 3600
  let horizon := now - 7 * 86400
  let acc := precipLoop cutoff horizon observations initPrecipAcc
  { total_mm := pyRound 2 acc.totalMM
    total_inches := pyRound 2 (acc.totalMM / 25.4)
    observation_count := acc.count
    latest_observation := acc.latest
    station_id := station_id
    daily_totals := (sortDaysDesc acc.daily).map fun kv => (kv.1, pyRound 2 (kv.2 / 25.4)) }

/-! Specification-level descriptions of the same aggregation, used to state
properties of the loop. -/

/-- Observations the loop actually consumes: the longest newest-first run
whose timestamps are not older than the horizon. -/
def consumedObs (horizon : ℤ) (l : List Obs) : List Obs :=
  l.takeWhile fun o => !decide (o.time < horizon)

/-- Precipitation values of the in-window observations of a list. -/
def winVals (cutoff : ℤ) (l : List Obs) : List ℚ :=
  l.filterMap fun o => if cutoff ≤ o.time then o.precip else none

/-- Recent-window millimeter aggregate of a list. -/
def winMM (cutoff : ℤ) (l : List Obs) : ℚ := (winVals cutoff l).sum

/-- Every present precipitation value of a list. -/
def allVals (l : List Obs) : List ℚ := l.filterMap fun o => o.precip

/-- Total millimeter aggregate of a list. -/
def allMM (l : List Obs) : ℚ := (allVals l).sum

/-- Precipitation values of the observations of a list falling on date `d`. -/
def dayVals (d : ℤ) (l : List Obs) : List ℚ :=
  l.filterMap fun o => if dateOf o.time = d then o.precip else none

/-- Millimeter aggregate of date `d` over a list. -/
def dayMM (d : ℤ) (l : List Obs) : ℚ := (dayVals d l).sum

/-- Lookup in the daily-totals association list. -/
def lookupDay (d : ℤ) : List (ℤ × ℚ) → Option ℚ
  | [] => none
  | (k, v) :: rest => if k = d then some v else lookupDay d rest

/-- Sum of the values of a daily-totals association list. -/
def sumValsOf (m : List (ℤ × ℚ)) : ℚ := (m.map fun kv => kv.2).sum

/-! ## get_pressure_data (lines 136-192) -/

/-- Loop state of `get_pressure_data`: the current (newest) pressure reading
and the best 24h-ago candidate so far, each with its hPa value and time. -/
structure PressAcc where
  current : Option (ℚ × ℤ)
  yesterday : Option (ℚ × ℤ)

/-- Body of the observation loop of `get_pressure_data` (lines 155-176):
record the first pressure value as current, and keep the candidate within one
hour of the 24h-ago mark whose distance to that mark is smallest (strictly
smaller distances replace the incumbent). -/
def pressStep (yd : ℤ) (s : PressAcc) (o : Obs) : PressAcc :=
  match o.pressure with
  | none => s
  | some pa =>
    let hpa := pa / 100
    let s1 := if s.current.isNone then { s with current := some (hpa, o.time) } else s
    if |o.time - yd| < 3600 then
      match s1.yesterday with
      | none => { s1 with yesterday := some (hpa, o.time) }
      | some pt =>
        if |o.time - yd| < |pt.2 - yd| then { s1 with yesterday := some (hpa, o.time) }
        else s1
    else s1

/-- Full scan of the observation list by `get_pressure_data`. -/
def pressScan (yd : ℤ) (l : List Obs) : PressAcc :=
  l.foldl (pressStep yd) ⟨none, none⟩

/-- Result dictionary of `get_pressure_data` (lines 183-189). -/
structure PressOut where
  current_pressure : Option ℚ
  yesterday_pressure : Option ℚ
  pressure_change : Option ℚ
  current_time : Option ℤ
  yesterday_time : Option ℤ

/-- Model of `round(x, 1) if x else None` (lines 184-185): a missing or zero
reading renders as `None`. -/
def truthyRound1 : Option (ℚ × ℤ) → Option ℚ
  | none => none
  | some pt => if pt.1 = 0 then none else some (pyRound 1 pt.1)

/-- Model of `get_pressure_data(station_id)` from the decoded observation
list onward (lines 146-189), including the Python truthiness tests
`if current_pressure and yesterday_pressure` and
`round(pressure_change, 1) if pressure_change else None`. -/
def get_pressure_data (observations : List Obs) (now : ℤ) : PressOut :=
  let yesterday := now - 86400
  let acc := pressScan yesterday observations
  let rawChange : Option ℚ :=
    match acc.current, acc.yesterday with
    | some c, some y => if c.1 = 0 ∨ y.1 = 0 then none else some (c.1 - y.1)
    | _, _ => none
  { current_pressure := truthyRound1 acc.current
    yesterday_pressure := truthyRound1 acc.yesterday
    pressure_change :=
      match rawChange with
      | none => none
      | some ch => if ch = 0 then none else some (pyRound 1 ch)
    current_time := acc.current.map fun pt => pt.2
    yesterday_time := acc.yesterday.map fun pt => pt.2 }

/-! ## get_forecast (lines 195-232) -/

/-- One entry of the decoded forecast period list. -/
structure ForecastPeriod where
  name : String
  temperature : ℤ
  temperatureUnit : String
  windSpeed : String
  windDirection : String
  shortForecast : String
  detailedForecast : String

/-- Result dictionary of `get_forecast` (lines 221-229). -/
structure ForecastOut where
  name : String
  temperature : ℤ
  temperature_unit : String
  wind_speed : String
  wind_direction : String
  short_forecast : String
  detailed_forecast : String

/-- Model of `get_forecast` from the decoded period list onward
(lines 213-229): `None` on an empty list, else the first period's fields. -/
def get_forecast (periods : List ForecastPeriod) : Option ForecastOut :=
  match periods with
  | [] => none
  | today :: _ =>
    some { name := today.name
           temperature := today.temperature
           temperature_unit := today.temperatureUnit
           wind_speed := today.windSpeed
           wind_direction := today.windDirection
           short_forecast := today.shortForecast
           detailed_forecast := today.detailedForecast }

/-! ## send_email recipient handling (lines 235-249) -/

/-- Value found under the `to_emails` config key: either a single string or a
list of strings (the `isinstance(to_emails, str)` type sniff). -/
inductive ToEmailsVal where
  | str (s : String)
  | strs (l : List String)

/-- Recipient-related part of the `email` config section. -/
structure EmailConfig where
  to_emails : Option ToEmailsVal
  to_email : Option String

/-- Recipient normalization of `send_email` (lines 240-249): `to_emails`
takes priority, a bare string becomes a one-element list, the legacy
`to_email` key is used only when `to_emails` is absent, and neither key
present raises. -/
def resolveRecipients (email_config : EmailConfig) : Except String (List String) :=
  match email_config.to_emails with
  | some (.str s) => Except.ok [s]
  | some (.strs l) => Except.ok l
  | none =>
    match email_config.to_email with
    | some s => Except.ok [s]
    | none => Except.error "No recipient email configured"

/-! ## main: decision rule and report rendering (lines 268-391) -/

/-- Sprinkler decision of `main` (lines 301-307): recommendation text and
its marker, from the recent-window inches total and the threshold. -/
def sprinklerRecommendation (total_precip threshold : ℚ) : String × String :=
  if threshold ≤ total_precip then ("NO - Sufficient rainfall", "✓")
  else ("YES - Run sprinkler", "✗")

/-- Configured pressure threshold with its default
(`sprinkler.get(..., 6)`, line 318). -/
def pressureThresholdOf (cfg : Option ℚ) : ℚ := cfg.getD 6

/-- Significance and trend labels of the 24h pressure change
(lines 322-333). -/
def significanceTrend (change pressure_threshold : ℚ) : String × String :=
  if pressure_threshold ≤ |change| ∧ change < 0 then ("SIGNIFICANT", "falling")
  else ("normal", if 0 < change then "rising" else "falling slightly")

/-- Fixed-point rendering of a rational with `n` decimals, the model of the
`:.2f` / `:.1f` format specifiers. -/
def fmtFixed (n : ℕ) (q : ℚ) : String :=
  let r := pyRoundInt (q * 10 ^ n)
  let sign := if r < 0 then "-" else ""
  let m := r.natAbs
  let fpStr := toString (m % 10 ^ n)
  let pad := String.mk (List.replicate (n - fpStr.length) (Char.ofNat 48))
  sign ++ toString (m / 10 ^ n) ++ "." ++ pad ++ fpStr

/-- Rendering of the `:+.1f` format specifier (explicit sign). -/
def fmtSigned1 (q : ℚ) : String :=
  if pyRoundInt (q * 10) < 0 then fmtFixed 1 q else "+" ++ fmtFixed 1 q

/-- Pressure section of the report (lines 320-341). The truthiness test on
`current_pressure` makes a reading rendered as 0.0 fall back to the
unavailable text; the yesterday reading is always present when the change is
(its fallback text here is unreachable). -/
def pressureText (pressure_data : PressOut) (pressure_threshold : ℚ) : String :=
  match pressure_data.current_pressure, pressure_data.pressure_change with
  | some cur, some change =>
    if cur = 0 then "  Data unavailable"
    else
      let st := significanceTrend change pressure_threshold
      "  Current: " ++ fmtFixed 1 cur ++ " hPa\n  24h ago: " ++
        (match pressure_data.yesterday_pressure with
         | some y => fmtFixed 1 y
         | none => "None") ++
        " hPa\n  Change: " ++ fmtSigned1 change ++ " hPa (" ++ st.1 ++ " - " ++ st.2 ++
        ")\n  Migraines are commonly triggered with pressures <1007 hPa or changes >6 hPa.\n  "
  | _, _ => "  Data unavailable"

/-- Forecast section of the report (lines 344-352). -/
def forecastText : Option ForecastOut → String
  | some f =>
    f.name.toUpper ++ ":\n  Temperature: " ++ toString f.temperature ++ "°" ++
      f.temperature_unit ++ "\n  Wind: " ++ f.wind_speed ++ " " ++ f.wind_direction ++
      "\n  Conditions: " ++ f.short_forecast ++ "\n\n  " ++ f.detailed_forecast
  | none => "  Forecast unavailable"

/-- One line of the daily-totals block (line 312); dates are rendered as
their day index in this model. -/
def dailyLine (kv : ℤ × ℚ) : String :=
  "  " ++ toString kv.1 ++ ": " ++ fmtFixed 2 kv.2 ++ " inches"

/-- Daily-totals section of the report (lines 310-314). -/
def dailyTotalsText (daily : List (ℤ × ℚ)) : String :=
  if daily.isEmpty then "  No data available"
  else String.intercalate "\n" (daily.map dailyLine)

/-- Separator line of the report. -/
def eqLine : String := String.mk (List.replicate 50 (Char.ofNat 61))

/-- Part of the report body preceding the forecast section (lines 355-371). -/
def emailBodyHead (hours_to_check : ℤ) (latitude longitude : ℚ)
    (precip_data : PrecipOut) (pressure_data : PressOut)
    (threshold pressure_threshold : ℚ) : String :=
  let rec1 := sprinklerRecommendation precip_data.total_inches threshold
  "Overnight Precipitation Report\n" ++ eqLine ++ "\n\nTime Period: Last " ++
    toString hours_to_check ++ " hours\nLocation: " ++ toString latitude ++ ", " ++
    toString longitude ++ "\nWeather Station: " ++ precip_data.station_id ++
    "\n\nPRECIPITATION TOTAL:\n  " ++ fmtFixed 2 precip_data.total_inches ++
    " inches (" ++ fmtFixed 2 precip_data.total_mm ++ " mm)\n\nRUN SPRINKLER TODAY?\n  " ++
    rec1.2 ++ " " ++ rec1.1 ++ "\n\nBAROMETRIC PRESSURE (24-hour change):\n" ++
    pressureText pressure_data pressure_threshold ++ "\n\nFORECAST:\n"

/-- Part of the report body following the forecast section (lines 374-384). -/
def emailBodyTail (precip_data : PrecipOut) (threshold : ℚ) (now : ℤ) : String :=
  "\n\nLAST 7 DAYS (Daily Totals):\n" ++ dailyTotalsText precip_data.daily_totals ++
    "\n\nDetails:\n  - Threshold: " ++ toString threshold ++
    " inches\n  - Hours of precipitation: " ++ toString precip_data.observation_count ++
    "\n  - Latest observation: " ++
    (match precip_data.latest_observation with
     | some t => toString t
     | none => "None") ++
    "\n\n" ++ eqLine ++ "\nGenerated at: " ++ toString now ++ "\n"

/-- Report body assembled by `main` (lines 355-384). -/
def emailBody (hours_to_check : ℤ) (latitude longitude : ℚ)
    (precip_data : PrecipOut) (pressure_data : PressOut)
    (forecast : Option ForecastOut) (threshold pressure_threshold : ℚ)
    (now : ℤ) : String :=
  emailBodyHead hours_to_check latitude longitude precip_data pressure_data
      threshold pressure_threshold ++
    (forecastText forecast ++ emailBodyTail precip_data threshold now)

/-- Count of in-window contributing observations of a list. -/
def winCount (cutoff : ℤ) (l : List Obs) : ℕ := (winVals cutoff l).length

/-- Dates of the observations of a list carrying a present precipitation
value. -/
def pDates (l : List Obs) : List ℤ :=
  (l.filter fun o => o.precip.isSome).map fun o => dateOf o.time

/-! ## Lemmas about the precipitation loop -/

theorem precipStep_totalMM_none {cutoff : ℤ} {s : PrecipAcc} {o : Obs}
    (hp : o.precip = none) : (precipStep cutoff s o).totalMM = s.totalMM := by
  by_cases hl : s.latest.isNone <;> simp [precipStep, hp, hl]

theorem precipStep_totalMM_in {cutoff : ℤ} {s : PrecipAcc} {o : Obs} {p : ℚ}
    (hp : o.precip = some p) (hin : cutoff ≤ o.time) :
    (precipStep cutoff s o).totalMM = s.totalMM + p := by
  by_cases hl : s.latest.isNone <;> simp [precipStep, hp, hin, hl]

theorem precipStep_totalMM_out {cutoff : ℤ} {s : PrecipAcc} {o : Obs} {p : ℚ}
    (hp : o.precip = some p) (hout : ¬cutoff ≤ o.time) :
    (precipStep cutoff s o).totalMM = s.totalMM := by
  by_cases hl : s.latest.isNone <;> simp [precipStep, hp, hout, hl]

theorem precipStep_count_none {cutoff : ℤ} {s : PrecipAcc} {o : Obs}
    (hp : o.precip = none) : (precipStep cutoff s o).count = s.count := by
  by_cases hl : s.latest.isNone <;> simp [precipStep, hp, hl]

theorem precipStep_count_in {cutoff : ℤ} {s : PrecipAcc} {o : Obs} {p : ℚ}
    (hp : o.precip = some p) (hin : cutoff ≤ o.time) :
    (precipStep cutoff s o).count = s.count + 1 := by
  by_cases hl : s.latest.isNone <;> simp [precipStep, hp, hin, hl]

theorem precipStep_count_out {cutoff : ℤ} {s : PrecipAcc} {o : Obs} {p : ℚ}
    (hp : o.precip = some p) (hout : ¬cutoff ≤ o.time) :
    (precipStep cutoff s o).count = s.count := by
  by_cases hl : s.latest.isNone <;> simp [precipStep, hp, hout, hl]

theorem precipStep_daily_none {cutoff : ℤ} {s : PrecipAcc} {o : Obs}
    (hp : o.precip = none) : (precipStep cutoff s o).daily = s.daily := by
  by_cases hl : s.latest.isNone <;> simp [precipStep, hp, hl]

theorem precipStep_daily_some {cutoff : ℤ} {s : PrecipAcc} {o : Obs} {p : ℚ}
    (hp : o.precip = some p) :
    (precipStep cutoff s o).daily = addDaily (dateOf o.time) p s.daily := by
  by_cases hl : s.latest.isNone <;> by_cases hin : cutoff ≤ o.time <;>
    simp [precipStep, hp, hl, hin]

/-- The break in the observation loop makes it process exactly the leading
run of observations not older than the horizon. -/
theorem precipLoop_eq_foldl (cutoff horizon : ℤ) (l : List Obs) (s : PrecipAcc) :
    precipLoop cutoff horizon l s =
      (consumedObs horizon l).foldl (precipStep cutoff) s := by
  induction l generalizing s with
  | nil => rfl
  | cons o rest ih =>
    by_cases h : o.time < horizon
    · simp [precipLoop, h, consumedObs, List.takeWhile_cons]
    · simp [precipLoop, h, consumedObs, List.takeWhile_cons, ih]

/-- The loop total is the start total plus the in-window aggregate. -/
theorem foldl_totalMM (cutoff : ℤ) (l : List Obs) (s : PrecipAcc) :
    (l.foldl (precipStep cutoff) s).totalMM = s.totalMM + winMM cutoff l := by
  induction l generalizing s with
  | nil => simp [winMM, winVals]
  | cons o rest ih =>
    rw [List.foldl_cons, ih]
    cases hp : o.precip with
    | none =>
      rw [precipStep_totalMM_none hp]
      simp [winMM, winVals, List.filterMap_cons, hp]
    | some p =>
      by_cases hin : cutoff ≤ o.time
      · rw [precipStep_totalMM_in hp hin]
        simp only [winMM, winVals, List.filterMap_cons, hp, if_pos hin,
          List.sum_cons]
        ring
      · rw [precipStep_totalMM_out hp hin]
        simp [winMM, winVals, List.filterMap_cons, hp, hin]

/-- The loop count is the start count plus the number of in-window
contributing observations. -/
theorem foldl_count (cutoff : ℤ) (l : List Obs) (s : PrecipAcc) :
    (l.foldl (precipStep cutoff) s).count = s.count + winCount cutoff l := by
  induction l generalizing s with
  | nil => simp [winCount, winVals]
  | cons o rest ih =>
    rw [List.foldl_cons, ih]
    cases hp : o.precip with
    | none =>
      rw [precipStep_count_none hp]
      simp [winCount, winVals, List.filterMap_cons, hp]
    | some p =>
      by_cases hin : cutoff ≤ o.time
      · rw [precipStep_count_in hp hin]
        simp only [winCount, winVals, List.filterMap_cons, hp, if_pos hin,
          List.length_cons]
        omega
      · rw [precipStep_count_out hp hin]
        simp [winCount, winVals, List.filterMap_cons, hp, hin]

theorem lookupDay_addDaily (d k : ℤ) (p : ℚ) (m : List (ℤ × ℚ)) :
    lookupDay d (addDaily k p m) =
      if k = d then some ((lookupDay d m).getD 0 + p) else lookupDay d m := by
  induction m with
  | nil =>
    by_cases h : k = d <;> simp [addDaily, lookupDay, h]
  | cons kv rest ih =>
    obtain ⟨k0, v0⟩ := kv
    by_cases h0 : k0 = k
    · subst h0
      by_cases h1 : k0 = d <;> simp [addDaily, lookupDay, h1]
    · by_cases h1 : k0 = d
      · have hkd : ¬k = d := fun h => h0 (h1.trans h.symm)
        have hdk : ¬d = k := fun h => hkd h.symm
        simp [addDaily, lookupDay, h0, h1, hkd, hdk]
      · simp [addDaily, lookupDay, h0, h1, ih]

theorem mem_keys_addDaily (d k : ℤ) (p : ℚ) (m : List (ℤ × ℚ)) :
    d ∈ (addDaily k p m).map Prod.fst ↔ d ∈ m.map Prod.fst ∨ d = k := by
  induction m with
  | nil => simp [addDaily, eq_comm]
  | cons kv rest ih =>
    obtain ⟨k0, v0⟩ := kv
    by_cases h0 : k0 = k
    · subst h0
      simp [addDaily, eq_comm]
      tauto
    · simp [addDaily, h0, ih]
      tauto

theorem nodup_keys_addDaily (k : ℤ) (p : ℚ) (m : List (ℤ × ℚ))
    (h : (m.map Prod.fst).Nodup) : ((addDaily k p m).map Prod.fst).Nodup := by
  induction m with
  | nil => simp [addDaily]
  | cons kv rest ih =>
    obtain ⟨k0, v0⟩ := kv
    simp only [List.map_cons, List.nodup_cons] at h
    by_cases h0 : k0 = k
    · subst h0
      simpa [addDaily] using h
    · simp only [addDaily, if_neg h0, List.map_cons, List.nodup_cons]
      refine ⟨fun hmem => ?_, ih h.2⟩
      rcases (mem_keys_addDaily k0 k p rest).mp hmem with h1 | h1
      · exact h.1 h1
      · exact h0 h1

theorem sumValsOf_addDaily (k : ℤ) (p : ℚ) (m : List (ℤ × ℚ)) :
    sumValsOf (addDaily k p m) = sumValsOf m + p := by
  induction m with
  | nil => simp [addDaily, sumValsOf]
  | cons kv rest ih =>
    obtain ⟨k0, v0⟩ := kv
    by_cases h0 : k0 = k
    · subst h0
      simp [addDaily, sumValsOf]
      ring
    · simp [addDaily, sumValsOf, h0] at ih ⊢
      rw [ih]
      ring

theorem lookupDay_of_mem_nodup {m : List (ℤ × ℚ)}
    (hnd : (m.map Prod.fst).Nodup) {kv : ℤ × ℚ} (h : kv ∈ m) :
    lookupDay kv.1 m = some kv.2 := by
  induction m with
  | nil => cases h
  | cons kv0 rest ih =>
    obtain ⟨k0, v0⟩ := kv0
    simp only [List.map_cons, List.nodup_cons] at hnd
    rcases List.mem_cons.mp h with rfl | h
    · simp [lookupDay]
    · have hne : k0 ≠ kv.1 := by
        intro hk
        exact hnd.1 (hk ▸ (List.mem_map.mpr ⟨kv, h, rfl⟩))
      simp [lookupDay, hne, ih hnd.2 h]

/-- The loop daily value at any date is the start value plus that date's
aggregate over the processed list. -/
theorem foldl_daily_getD (cutoff d : ℤ) (l : List Obs) (s : PrecipAcc) :
    (lookupDay d (l.foldl (precipStep cutoff) s).daily).getD 0 =
      (lookupDay d s.daily).getD 0 + dayMM d l := by
  induction l generalizing s with
  | nil => simp [dayMM, dayVals]
  | cons o rest ih =>
    rw [List.foldl_cons, ih]
    cases hp : o.precip with
    | none =>
      rw [precipStep_daily_none hp]
      simp [dayMM, dayVals, List.filterMap_cons, hp]
    | some p =>
      rw [precipStep_daily_some hp, lookupDay_addDaily]
      by_cases hdd : dateOf o.time = d
      · rw [if_pos hdd]
        simp [dayMM, dayVals, List.filterMap_cons, hp, hdd]
        ring
      · rw [if_neg hdd]
        simp [dayMM, dayVals, List.filterMap_cons, hp, hdd]

/-- A date has an entry after the loop iff it had one before or occurs as
the date of a processed contributing observation. -/
theorem foldl_daily_isSome (cutoff d : ℤ) (l : List Obs) (s : PrecipAcc) :
    (lookupDay d (l.foldl (precipStep cutoff) s).daily).isSome = true ↔
      (lookupDay d s.daily).isSome = true ∨ d ∈ pDates l := by
  induction l generalizing s with
  | nil => simp [pDates]
  | cons o rest ih =>
    rw [List.foldl_cons, ih]
    cases hp : o.precip with
    | none =>
      rw [precipStep_daily_none hp]
      simp [pDates, List.filter_cons, hp]
    | some p =>
      rw [precipStep_daily_some hp, lookupDay_addDaily]
      by_cases hdd : dateOf o.time = d
      · rw [if_pos hdd]
        simp [pDates, List.filter_cons, hp, hdd]
      · rw [if_neg hdd]
        simp only [pDates, List.filter_cons, hp, Option.isSome_some,
          if_pos rfl, List.map_cons]
        constructor
        · intro h
          rcases h with h | h
          · exact Or.inl h
          · exact Or.inr (List.mem_cons_of_mem _ h)
        · intro h
          rcases h with h | h
          · exact Or.inl h
          · rcases List.mem_cons.mp h with h | h
            · exact absurd h.symm hdd
            · exact Or.inr h

/-- Keys stay duplicate-free through the loop. -/
theorem foldl_daily_nodup (cutoff : ℤ) (l : List Obs) (s : PrecipAcc)
    (h : ((s.daily).map Prod.fst).Nodup) :
    (((l.foldl (precipStep cutoff) s).daily).map Prod.fst).Nodup := by
  induction l generalizing s with
  | nil => exact h
  | cons o rest ih =>
    rw [List.foldl_cons]
    refine ih _ ?_
    cases hp : o.precip with
    | none => rw [precipStep_daily_none hp]; exact h
    | some p => rw [precipStep_daily_some hp]; exact nodup_keys_addDaily _ _ _ h

/-- The values of the daily dictionary sum to the start sum plus the whole
processed aggregate. -/
theorem foldl_daily_sumVals (cutoff : ℤ) (l : List Obs) (s : PrecipAcc) :
    sumValsOf (l.foldl (precipStep cutoff) s).daily =
      sumValsOf s.daily + allMM l := by
  induction l generalizing s with
  | nil => simp [allMM, allVals]
  | cons o rest ih =>
    rw [List.foldl_cons, ih]
    cases hp : o.precip with
    | none =>
      rw [precipStep_daily_none hp]
      simp [allMM, allVals, List.filterMap_cons, hp]
    | some p =>
      rw [precipStep_daily_some hp, sumValsOf_addDaily]
      simp only [allMM, allVals, List.filterMap_cons, hp, List.sum_cons]
      ring

theorem insertDayDesc_perm (x : ℤ × ℚ) (l : List (ℤ × ℚ)) :
    (insertDayDesc x l).Perm (x :: l) := by
  induction l with
  | nil => exact List.Perm.refl _
  | cons y ys ih =>
    by_cases h : y.1 ≤ x.1
    · simp [insertDayDesc, h]
    · simp only [insertDayDesc, if_neg h]
      exact (ih.cons y).trans (List.Perm.swap x y ys)

theorem sortDaysDesc_perm (l : List (ℤ × ℚ)) : (sortDaysDesc l).Perm l := by
  induction l with
  | nil => exact List.Perm.refl _
  | cons x xs ih => exact (insertDayDesc_perm x (sortDaysDesc xs)).trans (ih.cons x)

/-- In-window values are nonnegative sums of all values: the window aggregate
never exceeds the full aggregate for nonnegative precipitation. -/
theorem winMM_le_allMM (cutoff : ℤ) (l : List Obs)
    (hnn : ∀ o ∈ l, ∀ p, o.precip = some p → 0 ≤ p) :
    winMM cutoff l ≤ allMM l := by
  induction l with
  | nil => simp [winMM, winVals, allMM, allVals]
  | cons o rest ih =>
    have hrest := ih fun o' ho' => hnn o' (List.mem_cons_of_mem _ ho')
    cases hp : o.precip with
    | none =>
      simpa [winMM, winVals, allMM, allVals, List.filterMap_cons, hp] using hrest
    | some p =>
      have hp0 : 0 ≤ p := hnn o (List.mem_cons_self o rest) p hp
      by_cases hin : cutoff ≤ o.time
      · simp only [winMM, winVals, allMM, allVals, List.filterMap_cons, hp,
          if_pos hin, List.sum_cons]
        exact add_le_add_left hrest p
      · simp only [winMM, winVals, allMM, allVals, List.filterMap_cons, hp,
          if_neg hin, List.sum_cons]
        calc (winVals cutoff rest).sum ≤ (allVals rest).sum := hrest
          _ ≤ p + (allVals rest).sum := le_add_of_nonneg_left hp0

theorem precipAcc_totalMM (cutoff horizon : ℤ) (l : List Obs) :
    (precipLoop cutoff horizon l initPrecipAcc).totalMM =
      winMM cutoff (consumedObs horizon l) := by
  rw [precipLoop_eq_foldl, foldl_totalMM]
  simp [initPrecipAcc]

theorem precipAcc_count (cutoff horizon : ℤ) (l : List Obs) :
    (precipLoop cutoff horizon l initPrecipAcc).count =
      winCount cutoff (consumedObs horizon l) := by
  rw [precipLoop_eq_foldl, foldl_count]
  simp [initPrecipAcc]

theorem precipAcc_sumVals (cutoff horizon : ℤ) (l : List Obs) :
    sumValsOf (precipLoop cutoff horizon l initPrecipAcc).daily =
      allMM (consumedObs horizon l) := by
  rw [precipLoop_eq_foldl, foldl_daily_sumVals]
  simp [initPrecipAcc, sumValsOf]

theorem precipAcc_nodup (cutoff horizon : ℤ) (l : List Obs) :
    (((precipLoop cutoff horizon l initPrecipAcc).daily).map Prod.fst).Nodup := by
  rw [precipLoop_eq_foldl]
  exact foldl_daily_nodup _ _ _ (by simp [initPrecipAcc])

theorem precipAcc_getD (cutoff horizon d : ℤ) (l : List Obs) :
    (lookupDay d (precipLoop cutoff horizon l initPrecipAcc).daily).getD 0 =
      dayMM d (consumedObs horizon l) := by
  rw [precipLoop_eq_foldl, foldl_daily_getD]
  simp [initPrecipAcc, lookupDay]

theorem precipAcc_isSome (cutoff horizon d : ℤ) (l : List Obs) :
    (lookupDay d (precipLoop cutoff horizon l initPrecipAcc).daily).isSome = true ↔
      d ∈ pDates (consumedObs horizon l) := by
  rw [precipLoop_eq_foldl, foldl_daily_isSome]
  simp [initPrecipAcc, lookupDay]

/-- Unfolding of the total_inches field of `get_precipitation_data`. -/
theorem get_precipitation_data_inches (station_id : String) (l : List Obs)
    (now hours : ℤ) :
    (get_precipitation_data station_id l now hours).total_inches =
      pyRound 2 ((precipLoop (now - hours * 3600) (now - 7 * 86400) l
        initPrecipAcc).totalMM / 25.4) := rfl

/-- Unfolding of the daily_totals field of `get_precipitation_data`. -/
theorem get_precipitation_data_daily (station_id : String) (l : List Obs)
    (now hours : ℤ) :
    (get_precipitation_data station_id l now hours).daily_totals =
      (sortDaysDesc (precipLoop (now - hours * 3600) (now - 7 * 86400) l
        initPrecipAcc).daily).map fun kv => (kv.1, pyRound 2 (kv.2 / 25.4)) := rfl

/-- Every entry of the returned daily map is keyed by the date of some
consumed contributing observation, and its value is that date's consumed
millimeter aggregate converted to inches and rounded. -/
theorem daily_totals_entry_spec (station_id : String) (observations : List Obs)
    (now hours : ℤ) :
    ∀ kv ∈ (get_precipitation_data station_id observations now hours).daily_totals,
      kv.1 ∈ pDates (consumedObs (now - 7 * 86400) observations) ∧
      kv.2 = pyRound 2
        (dayMM kv.1 (consumedObs (now - 7 * 86400) observations) / 25.4) := by
  intro kv hkv
  rw [get_precipitation_data_daily] at hkv
  obtain ⟨kv0, hkv0s, hconv⟩ := List.mem_map.mp hkv
  have hmem : kv0 ∈ (precipLoop (now - hours * 3600) (now - 7 * 86400)
      observations initPrecipAcc).daily :=
    ((sortDaysDesc_perm _).mem_iff).mp hkv0s
  have hlook := lookupDay_of_mem_nodup (precipAcc_nodup _ _ _) hmem
  have hdate : kv0.1 ∈ pDates (consumedObs (now - 7 * 86400) observations) := by
    rw [← precipAcc_isSome (now - hours * 3600) (now - 7 * 86400) kv0.1
      observations, hlook]
    rfl
  have hval : kv0.2 = dayMM kv0.1 (consumedObs (now - 7 * 86400) observations) := by
    have h := precipAcc_getD (now - hours * 3600) (now - 7 * 86400) kv0.1 observations
    rw [hlook] at h
    simpa using h
  rw [← hconv]
  exact ⟨hdate, by rw [hval]⟩

/-! ## Lemmas about the pressure scan -/

theorem pressStep_yesterday_nopress {yd : ℤ} {s : PressAcc} {o : Obs}
    (hp : o.pressure = none) : (pressStep yd s o).yesterday = s.yesterday := by
  simp [pressStep, hp]

theorem pressStep_yesterday_far {yd : ℤ} {s : PressAcc} {o : Obs} {pa : ℚ}
    (hp : o.pressure = some pa) (hd : ¬|o.time - yd| < 3600) :
    (pressStep yd s o).yesterday = s.yesterday := by
  by_cases hc : s.current.isNone <;> simp [pressStep, hp, hd, hc]

theorem pressStep_yesterday_new {yd : ℤ} {s : PressAcc} {o : Obs} {pa : ℚ}
    (hp : o.pressure = some pa) (hd : |o.time - yd| < 3600)
    (hy : s.yesterday = none) :
    (pressStep yd s o).yesterday = some (pa / 100, o.time) := by
  by_cases hc : s.current.isNone <;> simp [pressStep, hp, hd, hc, hy]

theorem pressStep_yesterday_better {yd : ℤ} {s : PressAcc} {o : Obs} {pa : ℚ}
    {pt : ℚ × ℤ} (hp : o.pressure = some pa) (hd : |o.time - yd| < 3600)
    (hy : s.yesterday = some pt) (hlt : |o.time - yd| < |pt.2 - yd|) :
    (pressStep yd s o).yesterday = some (pa / 100, o.time) := by
  by_cases hc : s.current.isNone <;> simp [pressStep, hp, hd, hc, hy, hlt]

theorem pressStep_yesterday_keep {yd : ℤ} {s : PressAcc} {o : Obs} {pa : ℚ}
    {pt : ℚ × ℤ} (hp : o.pressure = some pa) (hd : |o.time - yd| < 3600)
    (hy : s.yesterday = some pt) (hlt : ¬|o.time - yd| < |pt.2 - yd|) :
    (pressStep yd s o).yesterday = s.yesterday := by
  by_cases hc : s.current.isNone <;> simp [pressStep, hp, hd, hc, hy, hlt]

theorem pressStep_current_nopress {yd : ℤ} {s : PressAcc} {o : Obs}
    (hp : o.pressure = none) : (pressStep yd s o).current = s.current := by
  simp [pressStep, hp]

theorem pressStep_current_first {yd : ℤ} {s : PressAcc} {o : Obs} {pa : ℚ}
    (hp : o.pressure = some pa) (hc : s.current = none) :
    (pressStep yd s o).current = some (pa / 100, o.time) := by
  by_cases hd : |o.time - yd| < 3600
  · cases hy : s.yesterday with
    | none => simp [pressStep, hp, hd, hc, hy]
    | some pt =>
      by_cases hlt : |o.time - yd| < |pt.2 - yd| <;>
        simp [pressStep, hp, hd, hc, hy, hlt]
  · simp [pressStep, hp, hd, hc]

theorem pressStep_current_keep {yd : ℤ} {s : PressAcc} {o : Obs} {pa : ℚ}
    {c : ℚ × ℤ} (hp : o.pressure = some pa) (hc : s.current = some c) :
    (pressStep yd s o).current = s.current := by
  by_cases hd : |o.time - yd| < 3600
  · cases hy : s.yesterday with
    | none => simp [pressStep, hp, hd, hc, hy]
    | some pt =>
      by_cases hlt : |o.time - yd| < |pt.2 - yd| <;>
        simp [pressStep, hp, hd, hc, hy, hlt]
  · simp [pressStep, hp, hd, hc]

/-- If the scan ends with no 24h-ago candidate, it started with none and the
list offers no observation with a pressure value within one hour of the
mark. -/
theorem pressFold_yesterday_none {yd : ℤ} {l : List Obs} {s : PressAcc}
    (h : (List.foldl (pressStep yd) s l).yesterday = none) :
    s.yesterday = none ∧
      ∀ o ∈ l, o.pressure.isSome → ¬|o.time - yd| < 3600 := by
  induction l generalizing s with
  | nil =>
    simp only [List.foldl_nil] at h
    exact ⟨h, by simp⟩
  | cons o rest ih =>
    rw [List.foldl_cons] at h
    obtain ⟨hs', hrest⟩ := ih h
    cases hp : o.pressure with
    | none =>
      rw [pressStep_yesterday_nopress hp] at hs'
      refine ⟨hs', fun o' ho' hps hcand => ?_⟩
      rcases List.mem_cons.mp ho' with rfl | ho'
      · rw [hp] at hps; simp at hps
      · exact hrest o' ho' hps hcand
    | some pa =>
      by_cases hd : |o.time - yd| < 3600
      · exfalso
        cases hy : s.yesterday with
        | none => rw [pressStep_yesterday_new hp hd hy] at hs'; cases hs'
        | some pt =>
          by_cases hlt : |o.time - yd| < |pt.2 - yd|
          · rw [pressStep_yesterday_better hp hd hy hlt] at hs'; cases hs'
          · rw [pressStep_yesterday_keep hp hd hy hlt, hy] at hs'; cases hs'
      · rw [pressStep_yesterday_far hp hd] at hs'
        refine ⟨hs', fun o' ho' hps hcand => ?_⟩
        rcases List.mem_cons.mp ho' with rfl | ho'
        · exact hd hcand
        · exact hrest o' ho' hps hcand

/-- Characterization of the 24h-ago candidate kept by the scan: it either was
already in the starting state or originates from a list entry with a present
pressure value within one hour of the mark; its distance to the mark is
minimal among all such list entries, and no larger than the starting
candidate's distance. -/
theorem pressFold_yesterday_some {yd : ℤ} {l : List Obs} {s : PressAcc}
    {p : ℚ} {t : ℤ}
    (h : (List.foldl (pressStep yd) s l).yesterday = some (p, t)) :
    (s.yesterday = some (p, t) ∨
      ∃ o ∈ l, o.time = t ∧ ∃ pa, o.pressure = some pa ∧ p = pa / 100 ∧
        |t - yd| < 3600) ∧
    (∀ o ∈ l, o.pressure.isSome → |o.time - yd| < 3600 →
      |t - yd| ≤ |o.time - yd|) ∧
    (∀ q u, s.yesterday = some (q, u) → |t - yd| ≤ |u - yd|) := by
  induction l generalizing s with
  | nil =>
    simp only [List.foldl_nil] at h
    refine ⟨Or.inl h, by simp, fun q u hqu => ?_⟩
    rw [h] at hqu
    injection hqu with hqu
    injection hqu with h1 h2
    rw [h2]
  | cons o rest ih =>
    rw [List.foldl_cons] at h
    obtain ⟨horigin, hmin, hstate⟩ := ih h
    cases hp : o.pressure with
    | none =>
      rw [pressStep_yesterday_nopress hp] at horigin hstate
      refine ⟨?_, ?_, hstate⟩
      · rcases horigin with h1 | ⟨o', ho', h2⟩
        · exact Or.inl h1
        · exact Or.inr ⟨o', List.mem_cons_of_mem _ ho', h2⟩
      · intro o' ho' hps hcand
        rcases List.mem_cons.mp ho' with rfl | ho'
        · rw [hp] at hps; simp at hps
        · exact hmin o' ho' hps hcand
    | some pa =>
      by_cases hd : |o.time - yd| < 3600
      · cases hy : s.yesterday with
        | none =>
          have hnew := pressStep_yesterday_new hp hd hy
          have hto : |t - yd| ≤ |o.time - yd| := hstate _ _ hnew
          refine ⟨?_, ?_, ?_⟩
          · rcases horigin with h1 | ⟨o', ho', h2⟩
            · rw [hnew] at h1
              injection h1 with h1
              injection h1 with hp1 ht1
              exact Or.inr ⟨o, List.mem_cons_self o rest, ht1, pa, hp,
                hp1.symm, ht1 ▸ hd⟩
            · exact Or.inr ⟨o', List.mem_cons_of_mem _ ho', h2⟩
          · intro o' ho' hps hcand
            rcases List.mem_cons.mp ho' with rfl | ho'
            · exact hto
            · exact hmin o' ho' hps hcand
          · intro q u hqu
            exact Option.noConfusion hqu
        | some pt =>
          obtain ⟨pv, pu⟩ := pt
          by_cases hlt : |o.time - yd| < |pu - yd|
          · have hnew := pressStep_yesterday_better hp hd hy hlt
            have hto : |t - yd| ≤ |o.time - yd| := hstate _ _ hnew
            refine ⟨?_, ?_, ?_⟩
            · rcases horigin with h1 | ⟨o', ho', h2⟩
              · rw [hnew] at h1
                injection h1 with h1
                injection h1 with hp1 ht1
                exact Or.inr ⟨o, List.mem_cons_self o rest, ht1, pa, hp,
                  hp1.symm, ht1 ▸ hd⟩
              · exact Or.inr ⟨o', List.mem_cons_of_mem _ ho', h2⟩
            · intro o' ho' hps hcand
              rcases List.mem_cons.mp ho' with rfl | ho'
              · exact hto
              · exact hmin o' ho' hps hcand
            · intro q u hqu
              injection hqu with hqu
              injection hqu with h1 h2
              exact hto.trans (h2 ▸ hlt.le)
          · have hkeep := pressStep_yesterday_keep hp hd hy hlt
            rw [hkeep] at horigin hstate
            have hts : |t - yd| ≤ |pu - yd| := hstate pv pu hy
            refine ⟨?_, ?_, ?_⟩
            · rcases horigin with h1 | ⟨o', ho', h2⟩
              · exact Or.inl (hy ▸ h1)
              · exact Or.inr ⟨o', List.mem_cons_of_mem _ ho', h2⟩
            · intro o' ho' hps hcand
              rcases List.mem_cons.mp ho' with rfl | ho'
              · exact hts.trans (not_lt.mp hlt)
              · exact hmin o' ho' hps hcand
            · intro q u hqu
              exact hstate q u (hy.trans hqu)
      · rw [pressStep_yesterday_far hp hd] at horigin hstate
        refine ⟨?_, ?_, hstate⟩
        · rcases horigin with h1 | ⟨o', ho', h2⟩
          · exact Or.inl h1
          · exact Or.inr ⟨o', List.mem_cons_of_mem _ ho', h2⟩
        · intro o' ho' hps hcand
          rcases List.mem_cons.mp ho' with rfl | ho'
          · exact absurd hcand hd
          · exact hmin o' ho' hps hcand

/-- Origin of the current reading kept by the scan: the starting one, or the
value and time of a list entry with a present pressure value. -/
theorem pressFold_current_some {yd : ℤ} {l : List Obs} {s : PressAcc}
    {c : ℚ} {t : ℤ}
    (h : (List.foldl (pressStep yd) s l).current = some (c, t)) :
    s.current = some (c, t) ∨
      ∃ o ∈ l, o.time = t ∧ ∃ pa, o.pressure = some pa ∧ c = pa / 100 := by
  induction l generalizing s with
  | nil => exact Or.inl h
  | cons o rest ih =>
    rw [List.foldl_cons] at h
    rcases ih h with h1 | ⟨o', ho', h2⟩
    · cases hp : o.pressure with
      | none =>
        rw [pressStep_current_nopress hp] at h1
        exact Or.inl h1
      | some pa =>
        cases hc : s.current with
        | none =>
          rw [pressStep_current_first hp hc] at h1
          injection h1 with h1
          injection h1 with hc1 ht1
          exact Or.inr ⟨o, List.mem_cons_self o rest, ht1, pa, hp, hc1.symm⟩
        | some c0 =>
          rw [pressStep_current_keep hp hc] at h1
          exact Or.inl (hc ▸ h1)
    · exact Or.inr ⟨o', List.mem_cons_of_mem _ ho', h2⟩

/-- Unfolding of the pressure_change field of `get_pressure_data`. -/
theorem get_pressure_data_change (observations : List Obs) (now : ℤ) :
    (get_pressure_data observations now).pressure_change =
      match (pressScan (now - 86400) observations).current,
          (pressScan (now - 86400) observations).yesterday with
      | some c, some y =>
        if c.1 = 0 ∨ y.1 = 0 then none
        else if c.1 - y.1 = 0 then none else some (pyRound 1 (c.1 - y.1))
      | _, _ => none := by
  simp only [get_pressure_data]
  cases hc : (pressScan (now - 86400) observations).current with
  | none => rfl
  | some c =>
    cases hy : (pressScan (now - 86400) observations).yesterday with
    | none => rfl
    | some y =>
      by_cases hz : c.1 = 0 ∨ y.1 = 0
      · simp [hz]
      · by_cases hzz : c.1 - y.1 = 0 <;> simp [hz, hzz]

/-- Unfolding of the yesterday_time field of `get_pressure_data`. -/
theorem get_pressure_data_ytime (observations : List Obs) (now : ℤ) :
    (get_pressure_data observations now).yesterday_time =
      ((pressScan (now - 86400) observations).yesterday).map fun pt => pt.2 := rfl

/-! ## Theorems -/

/-- C2: whenever `get_pressure_data` selects a yesterday reading, that
reading belongs to an observation with a present pressure value whose time
is within one hour of the 24h-ago mark, and its distance to that mark is
minimal among all such observations (regardless of being before or after the
mark); moreover whenever such a candidate exists, a reading is selected — so
the pick is never simply the first reading beyond 24 hours. -/
theorem claim_C2_yesterday_nearest (observations : List Obs) (now : ℤ) :
    (∀ t, (get_pressure_data observations now).yesterday_time = some t →
      (∃ o ∈ observations, o.time = t ∧ o.pressure.isSome = true ∧
        |t - (now - 86400)| < 3600) ∧
      ∀ o ∈ observations, o.pressure.isSome = true →
        |o.time - (now - 86400)| < 3600 →
        |t - (now - 86400)| ≤ |o.time - (now - 86400)|) ∧
    ((∃ o ∈ observations, o.pressure.isSome = true ∧
        |o.time - (now - 86400)| < 3600) →
      ((get_pressure_data observations now).yesterday_time).isSome = true) := by
  constructor
  · intro t ht
    rw [get_pressure_data_ytime] at ht
    have hacc : ∃ p, (pressScan (now - 86400) observations).yesterday =
        some (p, t) := by
      cases hy : (pressScan (now - 86400) observations).yesterday with
      | none => rw [hy] at ht; cases ht
      | some pt =>
        obtain ⟨pv, pu⟩ := pt
        rw [hy] at ht
        simp at ht
        exact ⟨pv, by rw [ht]⟩
    obtain ⟨p, hacc⟩ := hacc
    rw [pressScan] at hacc
    obtain ⟨horigin, hmin, _⟩ := pressFold_yesterday_some hacc
    rcases horigin with h1 | ⟨o, ho, hot, pa, hpa, _, hdist⟩
    · exact Option.noConfusion h1
    · exact ⟨⟨o, ho, hot, by rw [hpa]; rfl, hdist⟩, hmin⟩
  · rintro ⟨o, ho, hps, hcand⟩
    rw [get_pressure_data_ytime]
    cases hy : (pressScan (now - 86400) observations).yesterday with
    | none =>
      exfalso
      rw [pressScan] at hy
      exact (pressFold_yesterday_none hy).2 o ho hps hcand
    | some pt => rfl

/-- Witness for C2: with now = 1000000, a candidate 1800 seconds after the
24h-ago mark (23.5h old) loses to one 1080 seconds before it (24.3h old). -/
theorem claim_C2_yesterday_nearest_witness :
    (∃ o ∈ [(⟨915400, none, some 101000⟩ : Obs), ⟨912520, none, some 99000⟩],
      o.time = 912520 ∧ o.pressure.isSome = true ∧
        |(912520 : ℤ) - (1000000 - 86400)| < 3600) ∧
    ∀ o ∈ [(⟨915400, none, some 101000⟩ : Obs), ⟨912520, none, some 99000⟩],
      o.pressure.isSome = true → |o.time - (1000000 - 86400)| < 3600 →
      |(912520 : ℤ) - (1000000 - 86400)| ≤ |o.time - (1000000 - 86400)| :=
  (claim_C2_yesterday_nearest
      [⟨915400, none, some 101000⟩, ⟨912520, none, some 99000⟩] 1000000).1
    912520
    (by norm_num [get_pressure_data_ytime, pressScan, pressStep, List.foldl])

/-- C1 as amended: assuming every pressure value in the sequence is positive
(as physical barometric readings in pascals are), the pressure_change field
is present iff both a current and a 24h-ago reading are present AND their
hectopascal values differ, and when present it equals current minus
yesterday (each in hectopascals, pascals divided by 100) rounded to one
decimal place. The original claim drops the difference condition: the code
renders a zero difference as absent. -/
theorem claim_C1_change_amended (observations : List Obs) (now : ℤ)
    (hpos : ∀ o ∈ observations, ∀ pa, o.pressure = some pa → 0 < pa) :
    ((get_pressure_data observations now).pressure_change.isSome = true ↔
      ∃ c tc y ty,
        (pressScan (now - 86400) observations).current = some (c, tc) ∧
        (pressScan (now - 86400) observations).yesterday = some (y, ty) ∧
        c ≠ y) ∧
    ∀ c tc y ty,
      (pressScan (now - 86400) observations).current = some (c, tc) →
      (pressScan (now - 86400) observations).yesterday = some (y, ty) →
      c ≠ y →
      (get_pressure_data observations now).pressure_change =
        some (pyRound 1 (c - y)) := by
  have hcpos : ∀ c t,
      (pressScan (now - 86400) observations).current = some (c, t) → 0 < c := by
    intro c t h
    rw [pressScan] at h
    rcases pressFold_current_some h with h1 | ⟨o, ho, _, pa, hpa, hcpa⟩
    · exact Option.noConfusion h1
    · rw [hcpa]
      exact div_pos (hpos o ho pa hpa) (by norm_num)
  have hypos : ∀ y t,
      (pressScan (now - 86400) observations).yesterday = some (y, t) → 0 < y := by
    intro y t h
    rw [pressScan] at h
    obtain ⟨horigin, _, _⟩ := pressFold_yesterday_some h
    rcases horigin with h1 | ⟨o, ho, _, pa, hpa, hypa, _⟩
    · exact Option.noConfusion h1
    · rw [hypa]
      exact div_pos (hpos o ho pa hpa) (by norm_num)
  have hchange := get_pressure_data_change observations now
  constructor
  · constructor
    · intro hsome
      rw [hchange] at hsome
      cases hcc : (pressScan (now - 86400) observations).current with
      | none => rw [hcc] at hsome; simp at hsome
      | some c =>
        cases hyy : (pressScan (now - 86400) observations).yesterday with
        | none => rw [hcc, hyy] at hsome; simp at hsome
        | some y =>
          rw [hcc, hyy] at hsome
          change (if c.1 = 0 ∨ y.1 = 0 then none
            else if c.1 - y.1 = 0 then none
            else some (pyRound 1 (c.1 - y.1))).isSome = true at hsome
          by_cases hz : c.1 = 0 ∨ y.1 = 0
          · rw [if_pos hz] at hsome; simp at hsome
          · by_cases hzz : c.1 - y.1 = 0
            · rw [if_neg hz, if_pos hzz] at hsome; simp at hsome
            · exact ⟨c.1, c.2, y.1, y.2, rfl, rfl, sub_ne_zero.mp hzz⟩
    · rintro ⟨c, tc, y, ty, hcc, hyy, hne⟩
      rw [hchange, hcc, hyy]
      have hc0 : c ≠ 0 := ne_of_gt (hcpos c tc hcc)
      have hy0 : y ≠ 0 := ne_of_gt (hypos y ty hyy)
      simp [hc0, hy0, sub_eq_zero, hne]
  · intro c tc y ty hcc hyy hne
    rw [hchange, hcc, hyy]
    have hc0 : c ≠ 0 := ne_of_gt (hcpos c tc hcc)
    have hy0 : y ≠ 0 := ne_of_gt (hypos y ty hyy)
    simp [hc0, hy0, sub_eq_zero, hne]

/-- Counterexample to C1 as stated: with both a current reading and a
24h-ago reading present (both 100000 Pa), the pressure_change field is
absent, because the code renders the zero difference as None. -/
theorem claim_C1_change_counterexample :
    (get_pressure_data [⟨200000, none, some 100000⟩, ⟨113600, none, some 100000⟩]
        200000).current_pressure.isSome = true ∧
    (get_pressure_data [⟨200000, none, some 100000⟩, ⟨113600, none, some 100000⟩]
        200000).yesterday_pressure.isSome = true ∧
    (get_pressure_data [⟨200000, none, some 100000⟩, ⟨113600, none, some 100000⟩]
        200000).pressure_change = none := by
  norm_num [get_pressure_data, pressScan, pressStep, List.foldl, truthyRound1]

/-- Witness for the amended C1 at two differing positive readings. -/
theorem claim_C1_change_amended_witness :
    (∀ o ∈ [(⟨200000, none, some 101000⟩ : Obs), ⟨113600, none, some 99000⟩],
      ∀ pa, o.pressure = some pa → 0 < pa) ∧
    (get_pressure_data [⟨200000, none, some 101000⟩, ⟨113600, none, some 99000⟩]
        200000).pressure_change = some (pyRound 1 (1010 - 990)) := by
  have hpos : ∀ o ∈ [(⟨200000, none, some 101000⟩ : Obs), ⟨113600, none, some 99000⟩],
      ∀ pa, o.pressure = some pa → 0 < pa := by
    intro o ho pa hpa
    rcases List.mem_cons.mp ho with rfl | ho
    · injection hpa with hpa; rw [← hpa]; norm_num
    · rcases List.mem_cons.mp ho with rfl | ho
      · injection hpa with hpa; rw [← hpa]; norm_num
      · cases ho
  refine ⟨hpos,
    (claim_C1_change_amended _ 200000 hpos).2 1010 200000 990 113600 ?_ ?_
      (by norm_num)⟩
  · norm_num [pressScan, pressStep, List.foldl]
  · norm_num [pressScan, pressStep, List.foldl]

/-- C5 as amended: the recent-window inches total equals the recent-window
raw millimeter aggregate divided by 25.4 and rounded to two decimals, and
the sum of the per-day inches values equals the sum over the map's days of
that day's 7-day millimeter aggregate divided by 25.4 and rounded to two
decimals per day. The original claim further equated the per-day sum with
the recent-window figure, which fails because the 7-day map also covers
observations outside the recent window (and rounds per day). -/
theorem claim_C5_roundtrip_amended (station_id : String) (observations : List Obs)
    (now hours : ℤ) :
    (get_precipitation_data station_id observations now hours).total_inches =
      pyRound 2 (winMM (now - hours * 3600)
        (consumedObs (now - 7 * 86400) observations) / 25.4) ∧
    (((get_precipitation_data station_id observations now hours).daily_totals).map
        Prod.snd).sum =
      (((get_precipitation_data station_id observations now hours).daily_totals).map
        fun kv => pyRound 2 (dayMM kv.1
          (consumedObs (now - 7 * 86400) observations) / 25.4)).sum := by
  constructor
  · rw [get_precipitation_data_inches, precipAcc_totalMM]
  · refine congrArg List.sum (List.map_congr_left fun kv hkv => ?_)
    exact (daily_totals_entry_spec station_id observations now hours kv hkv).2

/-- Witness for the amended C5 at a concrete empty observation list. -/
theorem claim_C5_roundtrip_amended_witness :
    (get_precipitation_data "S" [] 0 12).total_inches =
      pyRound 2 (winMM (0 - 12 * 3600) (consumedObs (0 - 7 * 86400) []) / 25.4) :=
  (claim_C5_roundtrip_amended "S" [] 0 12).1

/-- Counterexample to C5 as stated: a single 25.4 mm observation two days
old lies inside the 7-day horizon but outside the 12-hour window, so the
per-day inches sum to 1.00 while the recent-window aggregate is 0. -/
theorem claim_C5_roundtrip_counterexample :
    (((get_precipitation_data "S" [⟨561600, some 25.4, none⟩] 712800 12).daily_totals).map
        Prod.snd).sum = 1 ∧
    (get_precipitation_data "S" [⟨561600, some 25.4, none⟩] 712800 12).total_inches = 0 ∧
    ¬((((get_precipitation_data "S" [⟨561600, some 25.4, none⟩] 712800 12).daily_totals).map
        Prod.snd).sum =
      pyRound 2 ((get_precipitation_data "S" [⟨561600, some 25.4, none⟩]
        712800 12).total_mm / 25.4)) := by
  norm_num [get_precipitation_data, precipLoop, precipStep, initPrecipAcc,
    addDaily, dateOf, sortDaysDesc, insertDayDesc, pyRound, pyRoundInt]

/-- C6 as amended: the loop total and count are exactly the in-window
aggregate over the consumed observations; every consumed observation lies
within the 7-day horizon; for nonnegative precipitation the recent-window
millimeter total never exceeds the sum of the daily millimeter buckets
(window within horizon); and every in-window contributing observation is
also added to its day's bucket, whose value is at least that contribution.
The original claim compared the window total against a single day's bucket,
which fails when the window spans midnight. -/
theorem claim_C6_window_subset_amended (observations : List Obs) (now hours : ℤ)
    (hnn : ∀ o ∈ observations, ∀ p, o.precip = some p → 0 ≤ p) :
    (precipLoop (now - hours * 3600) (now - 7 * 86400) observations
        initPrecipAcc).totalMM =
      winMM (now - hours * 3600) (consumedObs (now - 7 * 86400) observations) ∧
    (precipLoop (now - hours * 3600) (now - 7 * 86400) observations
        initPrecipAcc).count =
      winCount (now - hours * 3600) (consumedObs (now - 7 * 86400) observations) ∧
    (∀ o ∈ consumedObs (now - 7 * 86400) observations,
      now - 7 * 86400 ≤ o.time) ∧
    (precipLoop (now - hours * 3600) (now - 7 * 86400) observations
        initPrecipAcc).totalMM ≤
      sumValsOf (precipLoop (now - hours * 3600) (now - 7 * 86400) observations
        initPrecipAcc).daily ∧
    ∀ o ∈ consumedObs (now - 7 * 86400) observations, ∀ p, o.precip = some p →
      now - hours * 3600 ≤ o.time →
      ∃ v, lookupDay (dateOf o.time) (precipLoop (now - hours * 3600)
        (now - 7 * 86400) observations initPrecipAcc).daily = some v ∧ p ≤ v := by
  have hsub : ∀ o ∈ consumedObs (now - 7 * 86400) observations, o ∈ observations :=
    fun o ho => (List.takeWhile_sublist _).subset ho
  have hnn' : ∀ o ∈ consumedObs (now - 7 * 86400) observations,
      ∀ p, o.precip = some p → 0 ≤ p :=
    fun o ho => hnn o (hsub o ho)
  refine ⟨precipAcc_totalMM _ _ _, precipAcc_count _ _ _, ?_, ?_, ?_⟩
  · intro o ho
    have := List.mem_takeWhile_imp ho
    simp only [Bool.not_eq_eq_eq_not, Bool.not_true, decide_eq_false_iff_not,
      not_lt] at this
    exact this
  · rw [precipAcc_totalMM, precipAcc_sumVals]
    exact winMM_le_allMM _ _ hnn'
  · intro o ho p hp hin
    have hdate : dateOf o.time ∈ pDates (consumedObs (now - 7 * 86400) observations) :=
      List.mem_map.mpr ⟨o, List.mem_filter.mpr ⟨ho, by rw [hp]; rfl⟩, rfl⟩
    have hsome := (precipAcc_isSome (now - hours * 3600) (now - 7 * 86400)
      (dateOf o.time) observations).mpr hdate
    obtain ⟨v, hv⟩ := Option.isSome_iff_exists.mp hsome
    refine ⟨v, hv, ?_⟩
    have hval : v = dayMM (dateOf o.time)
        (consumedObs (now - 7 * 86400) observations) := by
      have h := precipAcc_getD (now - hours * 3600) (now - 7 * 86400)
        (dateOf o.time) observations
      rw [hv] at h
      simpa using h
    rw [hval]
    refine List.single_le_sum (fun x hx => ?_) p ?_
    · obtain ⟨o', ho', hfo'⟩ := List.mem_filterMap.mp hx
      by_cases hdd : dateOf o'.time = dateOf o.time
      · rw [if_pos hdd] at hfo'
        exact hnn' o' ho' x hfo'
      · rw [if_neg hdd] at hfo'
        cases hfo'
    · exact List.mem_filterMap.mpr ⟨o, ho, by rw [if_pos rfl, hp]⟩

/-- Counterexample to C6 as stated: a 12-hour window spanning midnight with
10 mm on each side gives a recent-window total of 0.79 inches while each
single day's bucket holds only 0.39 inches. -/
theorem claim_C6_window_subset_counterexample :
    (get_precipitation_data "S" [⟨709200, some 10, none⟩, ⟨687600, some 10, none⟩]
        712800 12).total_inches = 79/100 ∧
    (get_precipitation_data "S" [⟨709200, some 10, none⟩, ⟨687600, some 10, none⟩]
        712800 12).daily_totals = [(8, 39/100), (7, 39/100)] ∧
    ¬((get_precipitation_data "S" [⟨709200, some 10, none⟩, ⟨687600, some 10, none⟩]
        712800 12).total_inches ≤ 39/100) := by
  have hf : Int.fract ((5000:ℚ)/127) < 1/2 := by
    rw [Int.fract]
    norm_num
  norm_num [get_precipitation_data, precipLoop, precipStep, initPrecipAcc,
    addDaily, dateOf, sortDaysDesc, insertDayDesc, pyRound, pyRoundInt, hf]

/-- Witness for the amended C6 at a concrete midnight-spanning input. -/
theorem claim_C6_window_subset_amended_witness :
    (∀ o ∈ [(⟨709200, some 10, none⟩ : Obs), ⟨687600, some 10, none⟩],
      ∀ p, o.precip = some p → 0 ≤ p) ∧
    (precipLoop (712800 - 12 * 3600) (712800 - 7 * 86400)
        [⟨709200, some 10, none⟩, ⟨687600, some 10, none⟩] initPrecipAcc).totalMM ≤
      sumValsOf (precipLoop (712800 - 12 * 3600) (712800 - 7 * 86400)
        [⟨709200, some 10, none⟩, ⟨687600, some 10, none⟩] initPrecipAcc).daily := by
  have hnn : ∀ o ∈ [(⟨709200, some 10, none⟩ : Obs), ⟨687600, some 10, none⟩],
      ∀ p, o.precip = some p → 0 ≤ p := by
    intro o ho p hp
    rcases List.mem_cons.mp ho with rfl | ho
    · injection hp with hp; rw [← hp]; norm_num
    · rcases List.mem_cons.mp ho with rfl | ho
      · injection hp with hp; rw [← hp]; norm_num
      · cases ho
  exact ⟨hnn, (claim_C6_window_subset_amended _ 712800 12 hnn).2.2.2.1⟩

/-- C7: the observation loop stops at the first observation older than the
7-day horizon (it processes exactly the leading within-horizon run), every
key of the returned daily map is the calendar date of an observation within
the trailing 7 days that carries a precipitation value, and no key is a
date older than 7 days before run time. -/
theorem claim_C7_daily_keys_horizon (station_id : String) (observations : List Obs)
    (now hours : ℤ) :
    precipLoop (now - hours * 3600) (now - 7 * 86400) observations initPrecipAcc =
      (consumedObs (now - 7 * 86400) observations).foldl
        (precipStep (now - hours * 3600)) initPrecipAcc ∧
    ∀ kv ∈ (get_precipitation_data station_id observations now hours).daily_totals,
      (∃ o ∈ observations, now - 7 * 86400 ≤ o.time ∧ o.precip.isSome = true ∧
        dateOf o.time = kv.1) ∧
      dateOf (now - 7 * 86400) ≤ kv.1 := by
  refine ⟨precipLoop_eq_foldl _ _ _ _, fun kv hkv => ?_⟩
  have hdate := (daily_totals_entry_spec station_id observations now hours kv hkv).1
  obtain ⟨o, hof, hdo⟩ := List.mem_map.mp hdate
  obtain ⟨hoc, hops⟩ := List.mem_filter.mp hof
  have hot : now - 7 * 86400 ≤ o.time := by
    have := List.mem_takeWhile_imp hoc
    simp only [Bool.not_eq_eq_eq_not, Bool.not_true, decide_eq_false_iff_not,
      not_lt] at this
    exact this
  have homem : o ∈ observations := (List.takeWhile_sublist _).subset hoc
  refine ⟨⟨o, homem, hot, hops, hdo⟩, ?_⟩
  rw [← hdo]
  exact Int.ediv_le_ediv (by norm_num) hot

/-- Witness for C7 at a single recent 5 mm observation. -/
theorem claim_C7_daily_keys_horizon_witness :
    (∃ o ∈ [(⟨709200, some 5, none⟩ : Obs)], (712800 : ℤ) - 7 * 86400 ≤ o.time ∧
      o.precip.isSome = true ∧ dateOf o.time = (8, (1 : ℚ)/5).1) ∧
    dateOf ((712800 : ℤ) - 7 * 86400) ≤ (8, (1 : ℚ)/5).1 :=
  (claim_C7_daily_keys_horizon "W" [⟨709200, some 5, none⟩] 712800 12).2
    (8, 1/5)
    (by
      have hf : ¬(Int.fract ((2500:ℚ)/127) < 1/2) := by
        rw [Int.fract]
        norm_num
      norm_num [get_precipitation_data, precipLoop, precipStep, initPrecipAcc,
        addDaily, dateOf, sortDaysDesc, insertDayDesc, pyRound, pyRoundInt, hf])

/-- C3: for every total_inches value and configured threshold, the
recommendation is the run-sprinkler verdict exactly when total_inches is
strictly below the threshold; at equality the verdict is the do-not-run
text. -/
theorem claim_C3_recommendation_iff (total_inches threshold : ℚ) :
    ((sprinklerRecommendation total_inches threshold).1 = "YES - Run sprinkler" ↔
      total_inches < threshold) ∧
    (sprinklerRecommendation threshold threshold).1 = "NO - Sufficient rainfall" := by
  constructor
  · by_cases h : threshold ≤ total_inches
    · simp only [sprinklerRecommendation, if_pos h]
      exact iff_of_false (by decide) (not_lt.mpr h)
    · simp only [sprinklerRecommendation, if_neg h]
      exact iff_of_true trivial (not_le.mp h)
  · simp only [sprinklerRecommendation, if_pos le_rfl]

/-- Witness for C3 at a concrete subthreshold total. -/
theorem claim_C3_recommendation_iff_witness :
    (sprinklerRecommendation 0 1).1 = "YES - Run sprinkler" :=
  (claim_C3_recommendation_iff 0 1).1.mpr (by norm_num)

/-- C4: the 24-hour pressure change is labelled SIGNIFICANT exactly when it
is a drop whose magnitude meets or exceeds the configured threshold; a rise
of any magnitude is labelled normal; the configured threshold defaults
to 6 hPa. -/
theorem claim_C4_significance_iff (change pressure_threshold : ℚ) :
    ((significanceTrend change pressure_threshold).1 = "SIGNIFICANT" ↔
      change < 0 ∧ pressure_threshold ≤ |change|) ∧
    (0 < change → (significanceTrend change pressure_threshold).1 = "normal") ∧
    pressureThresholdOf none = 6 := by
  refine ⟨?_, ?_, rfl⟩
  · by_cases h : pressure_threshold ≤ |change| ∧ change < 0
    · simp only [significanceTrend, if_pos h]
      exact iff_of_true trivial ⟨h.2, h.1⟩
    · simp only [significanceTrend, if_neg h]
      exact iff_of_false (by decide) fun hc => h ⟨hc.2, hc.1⟩
  · intro hpos
    have h : ¬(pressure_threshold ≤ |change| ∧ change < 0) :=
      fun hc => absurd hpos (not_lt.mpr hc.2.le)
    simp only [significanceTrend, if_neg h]

/-- Witness for C4 at a concrete rising change. -/
theorem claim_C4_significance_iff_witness :
    (significanceTrend 9 6).1 = "normal" :=
  (claim_C4_significance_iff 9 6).2.1 (by norm_num)

/-- C8: a successful forecast fetch with zero periods yields the explicit
unavailable result (no exception is raised, so the run proceeds), and the
report body rendered from that result contains the placeholder text
Forecast unavailable. -/
theorem claim_C8_empty_forecast (hours_to_check : ℤ) (latitude longitude : ℚ)
    (precip_data : PrecipOut) (pressure_data : PressOut)
    (threshold pressure_threshold : ℚ) (now : ℤ) :
    get_forecast [] = none ∧
    ∃ pre post,
      emailBody hours_to_check latitude longitude precip_data pressure_data
          (get_forecast []) threshold pressure_threshold now =
        pre ++ "Forecast unavailable" ++ post := by
  refine ⟨rfl, ⟨emailBodyHead hours_to_check latitude longitude precip_data
      pressure_data threshold pressure_threshold ++ "  ",
    emailBodyTail precip_data threshold now, ?_⟩⟩
  show emailBodyHead hours_to_check latitude longitude precip_data pressure_data
        threshold pressure_threshold ++
      (forecastText none ++ emailBodyTail precip_data threshold now) = _
  rw [show forecastText none = "  " ++ "Forecast unavailable" from rfl]
  simp only [String.append_assoc]

/-- Witness for C8 at a concrete empty period list. -/
theorem claim_C8_empty_forecast_witness : get_forecast [] = none :=
  (claim_C8_empty_forecast 12 1 2 ⟨0, 0, 0, none, "S", []⟩
    ⟨none, none, none, none, none⟩ 1 6 0).1

/-- C9: a single recipient string under the to_emails key or the legacy
to_email key is normalized to a one-element recipient list; with neither key
present, send_email raises. -/
theorem claim_C9_recipient_normalization :
    (∀ (s : String) (e : Option String),
        resolveRecipients ⟨some (ToEmailsVal.str s), e⟩ = Except.ok [s]) ∧
    (∀ s : String, resolveRecipients ⟨none, some s⟩ = Except.ok [s]) ∧
    ∃ msg, resolveRecipients ⟨none, none⟩ = Except.error msg :=
  ⟨fun _ _ => rfl, fun _ => rfl, ⟨_, rfl⟩⟩

/-- C10: when both keys are present, the recipients come from to_emails and
to_email is ignored; the legacy key is consulted only when to_emails is
absent. -/
theorem claim_C10_to_emails_priority :
    (∀ (v : ToEmailsVal) (e : Option String),
        resolveRecipients ⟨some v, e⟩ = resolveRecipients ⟨some v, none⟩) ∧
    (∀ (l : List String) (e : Option String),
        resolveRecipients ⟨some (ToEmailsVal.strs l), e⟩ = Except.ok l) ∧
    (∀ e : Option String, resolveRecipients ⟨none, e⟩ =
        match e with
        | some s => Except.ok [s]
        | none => Except.error "No recipient email configured") := by
  refine ⟨fun v e => ?_, fun _ _ => rfl, fun e => ?_⟩
  · cases v <;> rfl
  · cases e <;> rfl

/-- Witness for C9 at a concrete single-string configuration. -/
theorem claim_C9_recipient_normalization_witness :
    resolveRecipients ⟨some (ToEmailsVal.str "a"), some "b"⟩ = Except.ok ["a"] :=
  claim_C9_recipient_normalization.1 "a" (some "b")

/-- Witness for C10 at a configuration carrying both keys. -/
theorem claim_C10_to_emails_priority_witness :
    resolveRecipients ⟨some (ToEmailsVal.strs ["a", "b"]), some "c"⟩ =
      Except.ok ["a", "b"] :=
  claim_C10_to_emails_priority.2.1 ["a", "b"] (some "c")

end SprinklerCheck
